import Mathlib

/-!
Verification of the FIRE ticket-routing core: the result-reconciliation
pipeline (`load_results.py`), the manager-load accounting pass
(`load_results.py`, load-update loop), and the dashboard aggregation
engine (`app.py`: `prio_label`, `render_chart_from_spec`).

The Python source is shallowly embedded: pandas/Django rows become Lean
structures, the Django result table becomes a list of records keyed by
ticket GUID, and the dataframe becomes a list of rows.  All text
processing is done on `List Char` so that every definition evaluates by
kernel reduction.
-/

/-! ## Text utilities (`clean_text`, Django `icontains`) -/

/-- Lower-case a character list (model of Python `.lower()` as used by the
case-insensitive `icontains` lookup). -/
def toLowerL (l : List Char) : List Char := l.map Char.toLower

/-- Trim leading and trailing whitespace (model of Python `str.strip()`). -/
def trimL (l : List Char) : List Char :=
  ((l.dropWhile Char.isWhitespace).reverse.dropWhile Char.isWhitespace).reverse

/-- Model of `clean_text` in `load_results.py`: a missing (NaN) cell becomes
`""`, otherwise the value is stripped of surrounding whitespace. -/
def cleanText (v : Option String) : String :=
  match v with
  | none => ""
  | some s => String.mk (trimL s.data)

/-- Boolean list-prefix test used to implement the substring test below. -/
def isPrefixL : List Char → List Char → Bool
  | [], _ => true
  | _ :: _, [] => false
  | a :: as, b :: bs => a == b && isPrefixL as bs

/-- Boolean substring test on character lists. -/
def isInfixL (needle : List Char) : List Char → Bool
  | [] => needle.isEmpty
  | c :: rest => isPrefixL needle (c :: rest) || isInfixL needle rest

/-- Model of the Django `full_name__icontains=name` lookup in
`load_results.py`: case-insensitive substring containment. -/
def icontains (hay needle : String) : Bool :=
  isInfixL (toLowerL needle.data) (toLowerL hay.data)

/-! ## Priority tiering (`prio_label` in `app.py`)

```python
def prio_label(val):
    try:
        n = int(float(val))
        if n >= 8:   return "High"
        elif n >= 5: return "Medium"
        else:        return "Low"
    except:
        return str(val)
```
-/

/-- Accumulating parser for an underscore-grouped digit run, given the
value and digit count read so far: Python permits a single `_` only
strictly between two digits.  Returns the value and the number of digits
read (the count, not the character length, fixes the decimal scale). -/
def parseDigitsGo (acc nd : Nat) : List Char → Option (Nat × Nat)
  | [] => some (acc, nd)
  | ['_'] => none
  | '_' :: c :: rest =>
    if c.isDigit then parseDigitsGo (acc * 10 + (c.toNat - 48)) (nd + 1) rest
    else none
  | c :: rest =>
    if c.isDigit then parseDigitsGo (acc * 10 + (c.toNat - 48)) (nd + 1) rest
    else none

/-- Parse a non-empty underscore-grouped digit run: it must start and end
with a digit and carry no adjacent underscores. -/
def parseDigitsU : List Char → Option (Nat × Nat)
  | [] => none
  | c :: rest =>
    if c.isDigit then parseDigitsGo (c.toNat - 48) 1 rest else none

/-- Parse the exponent part after `e`: an optional sign and a non-empty
underscore-grouped digit run. -/
def parseExpPart (l : List Char) : Option Int :=
  let sl : Int × List Char :=
    match l with
    | '+' :: t => (1, t)
    | '-' :: t => (-1, t)
    | t => (1, t)
  (parseDigitsU sl.2).map (fun p => sl.1 * (p.1 : Int))

/-- Parse the mantissa: digit runs around at most one decimal point, at
least one digit in total.  Returns the digits as one integer together with
the number of fractional digits. -/
def parseMantissa (l : List Char) : Option (Nat × Nat) :=
  match l.splitOn '.' with
  | [a] =>
    if a.isEmpty then none
    else (parseDigitsU a).map (fun p => (p.1, 0))
  | [a, b] =>
    if a.isEmpty && b.isEmpty then none
    else
      match (if a.isEmpty then some ((0 : Nat), (0 : Nat)) else parseDigitsU a),
            (if b.isEmpty then some ((0 : Nat), (0 : Nat)) else parseDigitsU b) with
      | some pa, some pb => some (pa.1 * 10 ^ pb.2 + pb.1, pb.2)
      | _, _ => none
  | _ => none

/-- IEEE binary64 overflow threshold `2 ^ 1024 - 2 ^ 970`, written as a
decimal literal so comparisons against it evaluate directly: under
round-to-nearest-even, a real of this magnitude or more converts to
infinity, on which Python's `int(·)` raises `OverflowError`. -/
def floatOverflow : Nat :=
  179769313486231580793728971405303415079934132710037826936173778980444968292764750946649017977587207096330286416692887910946555547851940402630657488671505820681908902000708383676273854845817711531764475730270069855571366959622842914819860834936475292719074168444365510704342711559699508093042880177904174497792

set_option maxRecDepth 4000 in
theorem floatOverflow_eq : floatOverflow = 2 ^ 1024 - 2 ^ 970 := by
  norm_num [floatOverflow]

/-- Model of the `int(float(val))` attempt inside `prio_label`'s `try`
block, on the ASCII decimal fragment of Python float syntax: optional
surrounding whitespace, optional sign, underscore-grouped digits with at
most one decimal point and at least one digit, and an optional `e`/`E`
exponent with its own sign and digit run.  The parsed value is returned
exactly as a scaled integer `(v, k)` denoting the rational `v / 10 ^ k`.
A magnitude at or above the binary64 overflow threshold converts to
infinity, and `inf`/`nan` themselves make `int(·)` raise, so those inputs
take the `except` branch (`none`), as does anything non-numeric.  The one
idealization is that in-range decimal values are kept exact instead of
being rounded to binary64, which can tier differently only for inputs
carrying more than about seventeen significant digits right at a tier
boundary. -/
def parsePyNum (s : String) : Option (Int × Nat) :=
  let l0 := trimL s.data
  let sl : Int × List Char :=
    match l0 with
    | '+' :: t => (1, t)
    | '-' :: t => (-1, t)
    | t => (1, t)
  let body := sl.2.map Char.toLower
  let me : Option ((Nat × Nat) × Int) :=
    match body.splitOn 'e' with
    | [m] => (parseMantissa m).map (fun p => (p, 0))
    | [m, ex] =>
      match parseMantissa m, parseExpPart ex with
      | some p, some e => some (p, e)
      | _, _ => none
    | _ => none
  match me with
  | none => none
  | some (mk, e) =>
    let net : Int := e - (mk.2 : Int)
    let vk : Nat × Nat :=
      if 0 ≤ net then (mk.1 * 10 ^ net.toNat, 0) else (mk.1, (-net).toNat)
    if floatOverflow * 10 ^ vk.2 ≤ vk.1 then none
    else some (sl.1 * (vk.1 : Int), vk.2)

/-- Python `int(·)` on a scaled decimal `v / 10 ^ k`: truncation toward
zero. -/
def truncScaled (v : Int) (k : Nat) : Int :=
  if 0 ≤ v then ((v.toNat / 10 ^ k : Nat) : Int)
  else -(((-v).toNat / 10 ^ k : Nat) : Int)

/-- Model of `prio_label` in `app.py`: numeric values are tiered on the
truncated integer, anything unparseable passes through unchanged. -/
def prio_label (s : String) : String :=
  match parsePyNum s with
  | some (v, k) =>
    let n := truncScaled v k
    if 8 ≤ n then "High" else if 5 ≤ n then "Medium" else "Low"
  | none => s

theorem truncScaled_threshold (t : Nat) (ht : 1 ≤ t) (v : Int) (k : Nat) :
    ((t : Int) ≤ truncScaled v k ↔ (t : Int) * 10 ^ k ≤ v) := by
  have h10n : 0 < 10 ^ k := pow_pos (by norm_num : 0 < 10) k
  unfold truncScaled
  by_cases hv : 0 ≤ v
  · rw [if_pos hv]
    have hvt : ((v.toNat : Int)) = v := Int.toNat_of_nonneg hv
    rw [Nat.cast_le (α := Int) (m := t), Nat.le_div_iff_mul_le h10n]
    constructor
    · intro h
      have h2 : ((t * 10 ^ k : Nat) : Int) ≤ (v.toNat : Int) := Nat.cast_le.mpr h
      rw [hvt] at h2
      push_cast at h2
      exact h2
    · intro h
      have h2 : ((t * 10 ^ k : Nat) : Int) ≤ ((v.toNat : Int)) := by
        rw [hvt]; push_cast; exact h
      exact_mod_cast h2
  · push_neg at hv
    rw [if_neg (not_le.mpr hv)]
    have h1 : (1 : Int) ≤ (t : Int) := by exact_mod_cast ht
    have h2 : (1 : Int) ≤ (t : Int) * 10 ^ k := by
      have h10 : (1 : Int) ≤ 10 ^ k := one_le_pow₀ (by norm_num)
      nlinarith
    have h3 : (0 : Int) ≤ ((((-v).toNat / 10 ^ k : Nat)) : Int) := Int.ofNat_nonneg _
    constructor
    · intro h
      exfalso
      linarith
    · intro h
      exfalso
      linarith

/-- C6: for every priority value, if it parses as a number `n = v / 10 ^ k`
then the tier label is "High" when `n ≥ 8`, "Medium" when `5 ≤ n < 8` and
"Low" when `n < 5` (the threshold comparisons are stated with denominators
cleared: `n ≥ t ↔ v ≥ t * 10 ^ k`); if it cannot be parsed as a number the
raw label passes through unchanged. -/
theorem C6_priority_tiering (s : String) :
    (∀ v k, parsePyNum s = some (v, k) →
      prio_label s =
        (if (8 : Int) * 10 ^ k ≤ v then "High"
         else if (5 : Int) * 10 ^ k ≤ v then "Medium" else "Low")) ∧
    (parsePyNum s = none → prio_label s = s) := by
  constructor
  · intro v k hp
    have h8 := truncScaled_threshold 8 (by norm_num) v k
    have h5 := truncScaled_threshold 5 (by norm_num) v k
    push_cast at h8 h5
    unfold prio_label
    rw [hp]
    simp only [h8, h5]
  · intro hp
    unfold prio_label
    rw [hp]

set_option maxRecDepth 8000 in
/-- Witness for C6 at the spec's concrete examples (9 → "High", 6 →
"Medium", 2 → "Low", "urgent" → "urgent") together with the other parsed
forms: exponent notation ("1e3" = 1000 → "High"), underscore grouping
("1_0" = 10 → "High"), a fractional exponent value ("2.5e-1" = 0.25 →
"Low"), and an overflowing magnitude ("1e400", where `int(float(·))`
raises `OverflowError`, so the raw label passes through). -/
theorem C6_priority_tiering_witness :
    prio_label "9" = "High" ∧ prio_label "6" = "Medium" ∧
      prio_label "2" = "Low" ∧ prio_label "urgent" = "urgent" ∧
      prio_label "1e3" = "High" ∧ prio_label "1_0" = "High" ∧
      prio_label "2.5e-1" = "Low" ∧ prio_label "1e400" = "1e400" :=
  ⟨((C6_priority_tiering "9").1 9 0 (by decide)).trans (by decide),
   ((C6_priority_tiering "6").1 6 0 (by decide)).trans (by decide),
   ((C6_priority_tiering "2").1 2 0 (by decide)).trans (by decide),
   (C6_priority_tiering "urgent").2 (by decide),
   ((C6_priority_tiering "1e3").1 1000 0 (by decide)).trans (by decide),
   ((C6_priority_tiering "1_0").1 10 0 (by decide)).trans (by decide),
   ((C6_priority_tiering "2.5e-1").1 25 2 (by decide)).trans (by decide),
   (C6_priority_tiering "1e400").2 (by decide)⟩

/-! ## Data model (`routing/models.py`, `load_results.py`)

A `Manager` roster entry, a raw CSV result row (`results.csv`, fields read
through `row.get(...)`, so each cell may be absent), and a stored
`RoutingResult` record.  The Django result table is embedded as a list of
records; `RoutingResult.ticket` is a one-to-one key, represented by the
ticket GUID. -/

structure Manager where
  mid : Nat
  fullName : String
  currentLoad : Int
deriving DecidableEq

structure ResultRow where
  guid : Option String
  segment : Option String
  typ : Option String
  sentiment : Option String
  language : Option String
  priority : Option String
  recommendations : Option String
  attachments : Option String
  managerName : Option String
  position : Option String
  office : Option String
  escalated : Option String
  cityOriginal : Option String
  routingReason : Option String
  aiSource : Option String
  geoMethod : Option String
deriving DecidableEq

structure RoutingResult where
  ticketGuid : String
  aiSegment : String
  aiType : String
  aiSentiment : String
  aiLanguage : String
  aiPriority : String
  managerRecommendations : String
  aiAttachments : String
  managerName : String
  managerPosition : String
  aiAssignedOffice : String
  isEscalated : Bool
  cityOriginal : String
  routingReason : String
  aiSource : String
  geoMethod : String
  assignedManager : Option Nat
deriving DecidableEq

abbrev Store := List RoutingResult

/-! ## Reconciler (`load_results` row loop) -/

/-- Model of the manager-resolution step in `load_results.py`:

```python
manager_name = clean_text(row.get('Назначенный Менеджер'))
new_manager = None
if manager_name and manager_name not in ['Не найден', '-']:
    new_manager = Manager.objects.filter(full_name__icontains=manager_name).first()
```

Sentinel names ("Не найден", "-", empty) resolve to `none`; otherwise the
first roster entry whose full name contains the cleaned name
case-insensitively is chosen. -/
def resolveManager (roster : List Manager) (name : String) : Option Manager :=
  if name != "" && name != "Не найден" && name != "-" then
    roster.find? (fun m => icontains m.fullName name)
  else none

/-- The full record written by `update_or_create`'s `defaults` dict: every
classification field recomputed from the row. -/
def buildResult (roster : List Manager) (guid : String) (row : ResultRow) :
    RoutingResult :=
  let managerName := cleanText row.managerName
  { ticketGuid := guid
    aiSegment := cleanText row.segment
    aiType := cleanText row.typ
    aiSentiment := cleanText row.sentiment
    aiLanguage := cleanText row.language
    aiPriority := cleanText row.priority
    managerRecommendations := cleanText row.recommendations
    aiAttachments := cleanText row.attachments
    managerName := managerName
    managerPosition := cleanText row.position
    aiAssignedOffice := cleanText row.office
    isEscalated := cleanText row.escalated == "Да"
    cityOriginal := cleanText row.cityOriginal
    routingReason := cleanText row.routingReason
    aiSource := cleanText row.aiSource
    geoMethod := cleanText row.geoMethod
    assignedManager := (resolveManager roster managerName).map Manager.mid }

/-- Model of `RoutingResult.objects.update_or_create(ticket=ticket,
defaults=...)`: replace the record for this ticket wholesale when one
exists, otherwise append a new one.  Returns the new store and the Django
`created` flag. -/
def upsert (s : Store) (r : RoutingResult) : Store × Bool :=
  if s.any (fun x => x.ticketGuid == r.ticketGuid) then
    (s.map (fun x => if x.ticketGuid == r.ticketGuid then r else x), false)
  else (s ++ [r], true)

inductive RowOutcome where
  | created
  | updated
  | skippedNoGuid
  | skippedUnknown (guid : String)
deriving DecidableEq

/-- One iteration of the row loop in `load_results`: empty GUID ⇒ silent
`continue`; GUID not among the known tickets ⇒ `continue` after printing a
notice; otherwise upsert the rebuilt record. -/
def processRow (tickets : List String) (roster : List Manager) (s : Store)
    (row : ResultRow) : Store × RowOutcome :=
  let guid := cleanText row.guid
  if guid == "" then (s, RowOutcome.skippedNoGuid)
  else if !(tickets.contains guid) then (s, RowOutcome.skippedUnknown guid)
  else
    let p := upsert s (buildResult roster guid row)
    (p.1, if p.2 then RowOutcome.created else RowOutcome.updated)

/-- The observable output of one ingestion run: the resulting store, the
`created`/`updated` counters printed at the end, and the list of ticket
GUIDs mentioned by the per-row "ticket not found" notices. -/
structure IngestOutput where
  store : Store
  created : Nat
  updated : Nat
  reports : List String
deriving DecidableEq

/-- The row loop of `load_results`, folded over the CSV batch. -/
def ingest (tickets : List String) (roster : List Manager) (s : Store) :
    List ResultRow → IngestOutput
  | [] => ⟨s, 0, 0, []⟩
  | row :: rest =>
    let p := processRow tickets roster s row
    let out := ingest tickets roster p.1 rest
    match p.2 with
    | RowOutcome.created => ⟨out.store, out.created + 1, out.updated, out.reports⟩
    | RowOutcome.updated => ⟨out.store, out.created, out.updated + 1, out.reports⟩
    | RowOutcome.skippedNoGuid => out
    | RowOutcome.skippedUnknown g =>
      ⟨out.store, out.created, out.updated, g :: out.reports⟩

/-! ## LoadAccountant (`load_results` load-update loop)

```python
for m in Manager.objects.all():
    m.refresh_from_db()
    old_load = m.current_load
    fk_count   = RoutingResult.objects.filter(assigned_manager=m).count()
    name_count = RoutingResult.objects.filter(manager_name=m.full_name).count()
    ai_count   = RoutingResult.objects.filter(
        Q(assigned_manager=m) | Q(manager_name=m.full_name)
    ).distinct().count()
    m.current_load = old_load + ai_count
    m.save()
```
-/

/-- Structured-reference predicate: the stored FK points at this manager. -/
def fkMatch (r : RoutingResult) (m : Manager) : Bool :=
  r.assignedManager == some m.mid

/-- Free-text predicate: the stored manager name equals the roster full
name exactly. -/
def nameMatch (r : RoutingResult) (m : Manager) : Bool :=
  r.managerName == m.fullName

/-- A ticket resolves to a manager when either predicate holds. -/
def resolves (r : RoutingResult) (m : Manager) : Bool :=
  fkMatch r m || nameMatch r m

def fkCount (s : Store) (m : Manager) : Nat :=
  (s.filter (fun r => fkMatch r m)).length

def nameCount (s : Store) (m : Manager) : Nat :=
  (s.filter (fun r => nameMatch r m)).length

/-- Count of rows matching both predicates at once. -/
def bothCount (s : Store) (m : Manager) : Nat :=
  (s.filter (fun r => fkMatch r m && nameMatch r m)).length

/-- Model of the `ai_count` query: one filter over the disjunction of the
two predicates.  `.distinct()` is the identity here because each stored row
occurs exactly once in the queryset. -/
def aiCount (s : Store) (m : Manager) : Nat :=
  (s.filter (fun r => resolves r m)).length

/-- Model of the load-update loop: every roster entry's `current_load` is
re-read and incremented by that manager's deduplicated match count. -/
def updateLoads (s : Store) (ms : List Manager) : List Manager :=
  ms.map (fun m => { m with currentLoad := m.currentLoad + (aiCount s m : Int) })

/-- The spec's description of the AI-derived component, stated in its own
words for comparison with `aiCount`: form the set of FK-matched records and
the set of name-matched records, then take their union deduplicated by
ticket identity. -/
def specDedupUnionCount (s : Store) (m : Manager) : Nat :=
  let fkSet := s.filter (fun r => fkMatch r m)
  let nameSet := s.filter (fun r => nameMatch r m)
  (fkSet ++ nameSet.filter
    (fun r => !(fkSet.any (fun x => x.ticketGuid == r.ticketGuid)))).length

/-- The GUID column of the store. -/
def storeGuids (s : Store) : List String := s.map RoutingResult.ticketGuid

/-! ## Load deduplication (C4) and the load-recomputation defect (C1) -/

theorem filter_union_inter_length (p q : RoutingResult → Bool) (s : Store) :
    (s.filter (fun x => p x || q x)).length +
      (s.filter (fun x => p x && q x)).length =
    (s.filter (fun x => p x)).length + (s.filter (fun x => q x)).length := by
  induction s with
  | nil => rfl
  | cons r rest ih =>
    cases hp : p r <;> cases hq : q r <;>
      simp [List.filter_cons, hp, hq] <;> omega

theorem aiCount_add_bothCount (s : Store) (m : Manager) :
    aiCount s m + bothCount s m = fkCount s m + nameCount s m := by
  have h := filter_union_inter_length
    (fun r => fkMatch r m) (fun r => nameMatch r m) s
  simpa [aiCount, bothCount, fkCount, nameCount, resolves] using h

theorem filter_or_split_length (p q : RoutingResult → Bool) (s : Store) :
    (s.filter (fun x => p x)).length +
      (s.filter (fun x => !p x && q x)).length =
    (s.filter (fun x => p x || q x)).length := by
  induction s with
  | nil => rfl
  | cons r rest ih =>
    cases hp : p r <;> cases hq : q r <;>
      simp [List.filter_cons, hp, hq] <;> omega

/-- Under unique ticket GUIDs, testing a stored row's GUID for membership
in a filtered subset of the store answers exactly whether that row itself
satisfies the filter: no other row can share its GUID. -/
theorem any_guid_eq_pred (p : RoutingResult → Bool) (s : Store)
    (h : (storeGuids s).Nodup) (x : RoutingResult) (hx : x ∈ s) :
    ((s.filter p).any (fun y => y.ticketGuid == x.ticketGuid)) = p x := by
  induction s with
  | nil => cases hx
  | cons a rest ih =>
    have ha : a.ticketGuid ∉ storeGuids rest := by
      have := (List.nodup_cons.mp h).1
      simpa [storeGuids] using this
    have h' : (storeGuids rest).Nodup := (List.nodup_cons.mp h).2
    rcases List.mem_cons.mp hx with hxa | hxr
    · subst hxa
      cases hp : p x
      · rw [List.filter_cons_of_neg (by simp [hp])]
        rw [List.any_eq_false]
        intro y hy
        have hym : y ∈ rest := (List.mem_filter.mp hy).1
        simp only [Bool.not_eq_true, beq_eq_false_iff_ne]
        intro heq
        exact ha (heq ▸ List.mem_map_of_mem RoutingResult.ticketGuid hym)
      · rw [List.filter_cons_of_pos (by simp [hp])]
        simp [List.any_cons]
    · have hne : (x.ticketGuid == a.ticketGuid) = false := by
        rw [beq_eq_false_iff_ne]
        intro heq
        exact ha (heq ▸ List.mem_map_of_mem RoutingResult.ticketGuid hxr)
      cases hp : p a
      · rw [List.filter_cons_of_neg (by simp [hp])]
        exact ih h' hxr
      · rw [List.filter_cons_of_pos (by simp [hp])]
        rw [List.any_cons]
        have hne2 : (a.ticketGuid == x.ticketGuid) = false := by
          rw [beq_eq_false_iff_ne]
          intro heq
          exact (beq_eq_false_iff_ne.mp hne) heq.symm
        rw [hne2]
        simpa using ih h' hxr

theorem specDedupUnionCount_eq_aiCount (s : Store) (m : Manager)
    (h : (storeGuids s).Nodup) : specDedupUnionCount s m = aiCount s m := by
  unfold specDedupUnionCount aiCount
  simp only []
  rw [List.length_append]
  have hcong :
      List.filter
          (fun x => !((s.filter (fun r => fkMatch r m)).any
            (fun y => y.ticketGuid == x.ticketGuid)))
          (s.filter (fun r => nameMatch r m)) =
        List.filter (fun x => !(fkMatch x m))
          (s.filter (fun r => nameMatch r m)) :=
    List.filter_congr (fun x hx => by
      rw [any_guid_eq_pred (fun r => fkMatch r m) s h x (List.mem_filter.mp hx).1])
  rw [hcong, List.filter_filter]
  have hy := filter_or_split_length
    (fun r => fkMatch r m) (fun r => nameMatch r m) s
  simpa [resolves] using hy


theorem C4_load_dedup (s : Store) (m : Manager) (h : (storeGuids s).Nodup) :
    specDedupUnionCount s m = (s.filter (fun r => resolves r m)).length ∧
    aiCount s m = (s.filter (fun r => resolves r m)).length ∧
    aiCount s m + bothCount s m = fkCount s m + nameCount s m :=
  ⟨specDedupUnionCount_eq_aiCount s m h, rfl, aiCount_add_bothCount s m⟩

/-- Record template used by the concrete scenarios below: only the GUID,
the stored free-text manager name and the FK reference vary. -/
def mkRec (guid name : String) (am : Option Nat) : RoutingResult :=
  { ticketGuid := guid
    aiSegment := ""
    aiType := ""
    aiSentiment := ""
    aiLanguage := ""
    aiPriority := ""
    managerRecommendations := ""
    aiAttachments := ""
    managerName := name
    managerPosition := ""
    aiAssignedOffice := ""
    isEscalated := false
    cityOriginal := ""
    routingReason := ""
    aiSource := ""
    geoMethod := ""
    assignedManager := am }

def aliceMgr : Manager := ⟨0, "Alice Smith", 0⟩

/-- Store with one double-matched record (FK and exact name) and one
name-only record. -/
def dedupStore : Store :=
  [mkRec "g1" "Alice Smith" (some 0), mkRec "g2" "Alice Smith" none]

/-- Witness for C4: on `dedupStore` the deduplicated total is 2 while the
independent counts sum to 3 (the double-matched record is counted once). -/
theorem C4_load_dedup_witness :
    (specDedupUnionCount dedupStore aliceMgr =
        (dedupStore.filter (fun r => resolves r aliceMgr)).length ∧
      aiCount dedupStore aliceMgr =
        (dedupStore.filter (fun r => resolves r aliceMgr)).length ∧
      aiCount dedupStore aliceMgr + bothCount dedupStore aliceMgr =
        fkCount dedupStore aliceMgr + nameCount dedupStore aliceMgr) ∧
    aiCount dedupStore aliceMgr = 2 ∧
    fkCount dedupStore aliceMgr + nameCount dedupStore aliceMgr = 3 :=
  ⟨C4_load_dedup dedupStore aliceMgr (by decide), by decide, by decide⟩

/-- C1 (defect evaluation): the load-recomputation pass reads the mutated
`current_load` back as its own baseline.  With two stored records resolving
to the manager and baseline 0, the first pass yields load 2 and a second
pass over the unchanged store yields 4 — repeated recomputation drifts
upward instead of being a pure function of store and baseline. -/
theorem C1_load_recomputation_drifts :
    (updateLoads dedupStore [aliceMgr]).map Manager.currentLoad = [2] ∧
    (updateLoads dedupStore (updateLoads dedupStore [aliceMgr])).map
        Manager.currentLoad = [4] := by decide

/-! ## QueryEngine (`render_chart_from_spec` in `app.py`)

The dashboard dataframe is embedded as a list of rows, each row an
association list from column name to cell text.  The AI-authored chart
specification is a JSON object; its fields are embedded as a structure
over a small JSON value type. -/

abbrev DRow := List (String × String)

/-- Cell access `df[col]` for one row. -/
def getCol (r : DRow) (c : String) : String :=
  ((r.find? (fun p => p.1 == c)).map Prod.snd).getD ""

structure Frame where
  cols : List String
  rows : List DRow
deriving DecidableEq

/-- Scalar JSON values (an element of a `filter_val` list must be
hashable for the pandas `isin` call, so nested lists are excluded). -/
inductive FPrim where
  | pnull
  | pstr (s : String)
  | pnum (n : Int)
  | pbool (b : Bool)
deriving DecidableEq

/-- JSON values a chart specification can carry in `filter_val`. -/
inductive FVal where
  | vnull
  | vstr (s : String)
  | vnum (n : Int)
  | vbool (b : Bool)
  | vlist (l : List FPrim)
deriving DecidableEq

/-- Python truthiness on the embedded JSON values, as used by the
`if filter_col and filter_val and ...` guard. -/
def truthy : FVal → Bool
  | FVal.vnull => false
  | FVal.vstr s => !(s == "")
  | FVal.vnum n => !(n == 0)
  | FVal.vbool b => b
  | FVal.vlist l => !l.isEmpty

/-- Pandas scalar equality between a text cell and a JSON value: only a
string compares equal to a string cell. -/
def matchesVal (cell : String) : FVal → Bool
  | FVal.vstr t => cell == t
  | _ => false

/-- Pandas `isin` membership of a text cell in a JSON list. -/
def matchesPrim (cell : String) : FPrim → Bool
  | FPrim.pstr t => cell == t
  | _ => false

/-- The `group_by` field of a specification: a string, a list, or anything
else (`None` included). -/
inductive GroupBy where
  | gstr (s : String)
  | glist (l : List String)
  | gnone
deriving DecidableEq

structure ChartSpec where
  chartType : String
  title : String
  groupBy : GroupBy
  filterCol : Option String
  filterVal : FVal
  topN : Option Int
deriving DecidableEq

/-- Pandas `head(n)`: the first `n` rows when `n ≥ 0`, all but the last
`|n|` rows when `n < 0`. -/
def applyHead (n : Int) (l : List α) : List α :=
  if 0 ≤ n then l.take n.toNat else l.take (l.length - (-n).toNat)

/-- The `if top_n: ... .head(top_n)` step: absent or falsy (zero) `top_n`
leaves the table unchanged. -/
def applyTopN (t : Option Int) (l : List α) : List α :=
  match t with
  | some n => if n == 0 then l else applyHead n l
  | none => l

/-- The filter step of `render_chart_from_spec`:

```python
if filter_col and filter_val and filter_col in plot_df.columns:
    if isinstance(filter_val, list):
        plot_df = plot_df[plot_df[filter_col].isin(filter_val)]
    else:
        plot_df = plot_df[plot_df[filter_col] == filter_val]
```
-/
def filterRows (fc : Option String) (fv : FVal) (fr : Frame) : List DRow :=
  match fc with
  | some c =>
    if !(c == "") && truthy fv && fr.cols.contains c then
      match fv with
      | FVal.vlist l => fr.rows.filter (fun r => l.any (matchesPrim (getCol r c)))
      | v => fr.rows.filter (fun r => matchesVal (getCol r c) v)
    else fr.rows
  | none => fr.rows

/-- Distinct values in first-appearance order. -/
def uniqueFirst (l : List String) : List String :=
  l.foldl (fun acc x => if acc.contains x then acc else acc ++ [x]) []

/-- Boolean lexicographic comparison on character lists by code point. -/
def leChars : List Char → List Char → Bool
  | [], _ => true
  | _ :: _, [] => false
  | a :: as, b :: bs => if a == b then leChars as bs else decide (a < b)

/-- Lexicographic order on strings by code point (pandas label order). -/
def leStr (a b : String) : Prop := leChars a.data b.data = true

instance : DecidableRel leStr := fun s1 s2 => instDecidableEqBool (leChars s1.data s2.data) true

def sortLexS (l : List String) : List String := l.insertionSort leStr

/-- Descending-count order on histogram entries. -/
def cntGe (p q : String × Nat) : Prop := q.2 ≤ p.2

instance : DecidableRel cntGe := fun p q => Nat.decLe q.2 p.2

instance : IsTotal (String × Nat) cntGe := ⟨fun p q => le_total q.2 p.2⟩

instance : IsTrans (String × Nat) cntGe := ⟨fun _ _ _ h1 h2 => le_trans h2 h1⟩

/-- Model of `pd.crosstab(plot_df[a], plot_df[b])`: row labels are the
distinct values of column `a` in sorted order, column labels the distinct
values of `b`, and each cell counts the co-occurrences. -/
def crosstab (rows : List DRow) (a b : String) :
    List (String × List (String × Nat)) :=
  let rl := sortLexS (uniqueFirst (rows.map (fun r => getCol r a)))
  let cl := sortLexS (uniqueFirst (rows.map (fun r => getCol r b)))
  rl.map (fun ra =>
    (ra, cl.map (fun cb =>
      (cb, (rows.filter (fun r => getCol r a == ra && getCol r b == cb)).length))))

/-- Model of `plot_df[g].value_counts()`: count per distinct value, ordered
by descending count. -/
def valueCounts (rows : List DRow) (g : String) : List (String × Nat) :=
  let labels := uniqueFirst (rows.map (fun r => getCol r g))
  (labels.map (fun v =>
    (v, (rows.filter (fun r => getCol r g == v)).length))).insertionSort cntGe

/-- Observable result of `render_chart_from_spec`: a rendered
cross-tabulation, a rendered histogram (tagged with the chart type), or
one of the two warning messages, carrying the field names the message
interpolates. -/
inductive ChartOut where
  | crosstabOut (table : List (String × List (String × Nat)))
  | histOut (chartType : String) (counts : List (String × Nat))
  | warnCols (a b : String)
  | warnGroup (g : GroupBy)
deriving DecidableEq

/-- Model of `render_chart_from_spec`. -/
def render_chart_from_spec (spec : ChartSpec) (fr : Frame) : ChartOut :=
  let plotRows := filterRows spec.filterCol spec.filterVal fr
  match spec.groupBy with
  | GroupBy.glist [a, b] =>
    if fr.cols.contains a && fr.cols.contains b then
      ChartOut.crosstabOut (applyTopN spec.topN (crosstab plotRows a b))
    else ChartOut.warnCols a b
  | GroupBy.gstr g =>
    if fr.cols.contains g then
      ChartOut.histOut spec.chartType (applyTopN spec.topN (valueCounts plotRows g))
    else ChartOut.warnGroup (GroupBy.gstr g)
  | g => ChartOut.warnGroup g

/-! ## QueryEngine claims (C9, C2, C8) -/

/-- Three-row dataframe used by the concrete chart scenarios. -/
def chartFrame : Frame :=
  ⟨["Тип", "Офис"],
   [[("Тип", "A"), ("Офис", "X")],
    [("Тип", "A"), ("Офис", "Y")],
    [("Тип", "B"), ("Офис", "X")]]⟩

/-- C9: when `filter_col` names an existing column but `filter_val` is
falsy (null, empty string, zero, empty list), the filter guard fails and no
filtering happens at all: the aggregation runs over the entire dataset,
exactly as if no filter had been requested. -/
theorem C9_falsy_filter_value (spec : ChartSpec) (fr : Frame) (c : String)
    (hc : spec.filterCol = some c) (_hcc : fr.cols.contains c = true)
    (hfv : truthy spec.filterVal = false) :
    filterRows spec.filterCol spec.filterVal fr = fr.rows ∧
    render_chart_from_spec spec fr = render_chart_from_spec { spec with filterCol := none } fr := by
  have h1 : filterRows spec.filterCol spec.filterVal fr = fr.rows := by
    rw [hc]
    simp only [filterRows]
    rw [hfv]
    simp
  refine ⟨h1, ?_⟩
  unfold render_chart_from_spec
  rw [h1]
  rfl

def c9Spec : ChartSpec :=
  ⟨"bar", "t", GroupBy.gstr "Тип", some "Тип", FVal.vnum 0, none⟩

/-- Witness for C9: `filter_col = "Тип"` exists, `filter_val = 0` is falsy,
and the render_chart_from_spec is identical to the unfiltered render_chart_from_spec. -/
theorem C9_falsy_filter_value_witness :
    filterRows c9Spec.filterCol c9Spec.filterVal chartFrame = chartFrame.rows ∧
    render_chart_from_spec c9Spec chartFrame = render_chart_from_spec { c9Spec with filterCol := none } chartFrame :=
  C9_falsy_filter_value c9Spec chartFrame "Тип" rfl (by decide) (by decide)

/-- Counterexample for C2: `filter_col = "Сегмент"` is not a column of the
frame and `filter_val` is truthy, yet the result is an ordinary histogram
over the whole dataset — no warning names the offending field. -/
theorem C2_unknown_filter_col_silently_ignored :
    render_chart_from_spec ⟨"bar", "t", GroupBy.gstr "Тип", some "Сегмент", FVal.vstr "VIP", none⟩
        chartFrame =
      ChartOut.histOut "bar" [("A", 2), ("B", 1)] := by decide

/-- C2 (amended): `group_by` references are validated against the frame's
columns — an unknown single column or an unknown column in a two-column
`group_by` yields a structured warning carrying the field names, never a
crash — while an unknown `filter_col` is silently ignored: rendering
proceeds exactly as if no filter had been requested (no warning). -/
theorem C2_column_validation (spec : ChartSpec) (fr : Frame) :
    (∀ g, spec.groupBy = GroupBy.gstr g → fr.cols.contains g = false →
      render_chart_from_spec spec fr = ChartOut.warnGroup (GroupBy.gstr g)) ∧
    (∀ a b, spec.groupBy = GroupBy.glist [a, b] →
      (fr.cols.contains a && fr.cols.contains b) = false →
      render_chart_from_spec spec fr = ChartOut.warnCols a b) ∧
    (∀ c, spec.filterCol = some c → fr.cols.contains c = false →
      render_chart_from_spec spec fr = render_chart_from_spec { spec with filterCol := none } fr) := by
  refine ⟨?_, ?_, ?_⟩
  · intro g hg hgc
    have hgc2 : g ∉ fr.cols := by simpa using hgc
    unfold render_chart_from_spec
    rw [hg]
    simp [hgc2]
  · intro a b hg hab
    unfold render_chart_from_spec
    rw [hg]
    simp only []
    rw [if_neg (by simp only [hab]; exact Bool.false_ne_true)]
  · intro c hc hcc
    have h1 : filterRows spec.filterCol spec.filterVal fr = fr.rows := by
      rw [hc]
      simp only [filterRows]
      rw [hcc]
      simp
    unfold render_chart_from_spec
    rw [h1]
    rfl

/-- Witness for C2 (amended): an unknown `group_by` column warns with the
field name, an unknown column inside a two-column `group_by` warns with
both names, and an unknown `filter_col` renders like the unfiltered
specification. -/
theorem C2_column_validation_witness :
    render_chart_from_spec ⟨"bar", "t", GroupBy.gstr "Неизвестно", none, FVal.vnull, none⟩
        chartFrame = ChartOut.warnGroup (GroupBy.gstr "Неизвестно") ∧
    render_chart_from_spec ⟨"bar", "t", GroupBy.glist ["Тип", "Нет"], none, FVal.vnull, none⟩
        chartFrame = ChartOut.warnCols "Тип" "Нет" ∧
    render_chart_from_spec ⟨"bar", "t", GroupBy.gstr "Тип", some "Сегмент", FVal.vstr "VIP", none⟩
        chartFrame =
      render_chart_from_spec ⟨"bar", "t", GroupBy.gstr "Тип", none, FVal.vstr "VIP", none⟩
        chartFrame :=
  ⟨(C2_column_validation _ chartFrame).1 "Неизвестно" rfl (by decide),
   (C2_column_validation _ chartFrame).2.1 "Тип" "Нет" rfl (by decide),
   (C2_column_validation _ chartFrame).2.2 "Сегмент" rfl (by decide)⟩

/-- C8: with a two-column `group_by` over known columns, the result is the
contingency table: row labels enumerate the distinct values of the first
column, each row's cells enumerate the distinct values of the second, and
cell `(ra, cb)` counts the rows carrying both values; a present (nonzero)
`top_n` truncates that table to its first `n` rows by position, while the
single-column path truncates its descending-count ordering. -/
theorem map_fst_pair {β : Type} (f : String → β) (l : List String) :
    (l.map (fun x => (x, f x))).map Prod.fst = l := by
  induction l with
  | nil => rfl
  | cons x rest ih => simp [ih]

theorem C8_crosstab_contingency (fr : Frame) (ct title : String)
    (fc : Option String) (fv : FVal) (a b : String) (n : Int)
    (ha : fr.cols.contains a = true) (hb : fr.cols.contains b = true)
    (hn : 0 < n) :
    render_chart_from_spec ⟨ct, title, GroupBy.glist [a, b], fc, fv, some n⟩ fr =
      ChartOut.crosstabOut ((crosstab (filterRows fc fv fr) a b).take n.toNat) ∧
    ((crosstab (filterRows fc fv fr) a b).map Prod.fst).Perm
      (uniqueFirst ((filterRows fc fv fr).map (fun r => getCol r a))) ∧
    (∀ p ∈ crosstab (filterRows fc fv fr) a b,
      (p.2.map Prod.fst).Perm
        (uniqueFirst ((filterRows fc fv fr).map (fun r => getCol r b))) ∧
      ∀ q ∈ p.2,
        q.2 = ((filterRows fc fv fr).filter
          (fun r => getCol r a == p.1 && getCol r b == q.1)).length) ∧
    render_chart_from_spec ⟨ct, title, GroupBy.gstr a, fc, fv, some n⟩ fr =
      ChartOut.histOut ct ((valueCounts (filterRows fc fv fr) a).take n.toNat) ∧
    (valueCounts (filterRows fc fv fr) a).Sorted cntGe := by
  have hne : n ≠ 0 := by omega
  have hge : 0 ≤ n := le_of_lt hn
  have ha2 : a ∈ fr.cols := by simpa using ha
  have hb2 : b ∈ fr.cols := by simpa using hb
  refine ⟨?_, ?_, ?_, ?_, ?_⟩
  · unfold render_chart_from_spec
    simp [ha2, hb2, applyTopN, applyHead, hne, hge]
  · have hmap : (crosstab (filterRows fc fv fr) a b).map Prod.fst =
        sortLexS (uniqueFirst ((filterRows fc fv fr).map (fun r => getCol r a))) := by
      unfold crosstab
      exact map_fst_pair _ _
    rw [hmap]
    exact List.perm_insertionSort leStr _
  · intro p hp
    simp only [crosstab] at hp
    obtain ⟨ra, _hra, rfl⟩ := List.mem_map.mp hp
    constructor
    · rw [List.map_map]
      have : (Prod.fst ∘ fun cb =>
          (cb, ((filterRows fc fv fr).filter
            (fun r => getCol r a == ra && getCol r b == cb)).length)) = id := rfl
      rw [this, List.map_id]
      exact List.perm_insertionSort leStr _
    · intro q hq
      obtain ⟨cb, _hcb, rfl⟩ := List.mem_map.mp hq
      rfl
  · unfold render_chart_from_spec
    simp [ha2, applyTopN, applyHead, hne, hge]
  · exact List.sorted_insertionSort cntGe _

/-- Witness for C8 on the three-row frame: the cross-tab of type × office
truncated to its first row, and the histogram truncated to its top entry. -/
theorem C8_crosstab_contingency_witness :
    render_chart_from_spec ⟨"bar", "t", GroupBy.glist ["Тип", "Офис"], none, FVal.vnull, some 1⟩
        chartFrame = ChartOut.crosstabOut [("A", [("X", 1), ("Y", 1)])] ∧
    render_chart_from_spec ⟨"bar", "t", GroupBy.gstr "Тип", none, FVal.vnull, some 1⟩
        chartFrame = ChartOut.histOut "bar" [("A", 2)] := by
  have h := C8_crosstab_contingency chartFrame "bar" "t" none FVal.vnull
    "Тип" "Офис" 1 (by decide) (by decide) (by decide)
  exact ⟨h.1.trans (by decide), (h.2.2.2.1).trans (by decide)⟩

/-! ## Reconciler claims: supporting lemmas

`lookupStore` is the one-to-one lookup `RoutingResult.objects.filter(ticket=...)`,
`rowVal` the record a row would store (or `none` when the row is skipped). -/

def lookupStore (s : Store) (g : String) : Option RoutingResult :=
  s.find? (fun r => r.ticketGuid == g)

/-- The record a CSV row contributes: `none` when the row has an empty GUID
or an unknown ticket, otherwise the rebuilt record. -/
def rowVal (tickets : List String) (roster : List Manager) (row : ResultRow) :
    Option RoutingResult :=
  let guid := cleanText row.guid
  if guid == "" then none
  else if !(tickets.contains guid) then none
  else some (buildResult roster guid row)

theorem processRow_store (tickets : List String) (roster : List Manager)
    (s : Store) (row : ResultRow) :
    (processRow tickets roster s row).1 =
      match rowVal tickets roster row with
      | none => s
      | some v => (upsert s v).1 := by
  unfold processRow rowVal
  cases h1 : cleanText row.guid == ""
  · cases h2 : tickets.contains (cleanText row.guid)
    · have h2m : cleanText row.guid ∉ tickets := by simpa using h2
      simp [h1, h2m]
    · have h2m : cleanText row.guid ∈ tickets := by simpa using h2
      simp [h1, h2m]
  · simp [h1]

theorem processRow_skip_none (tickets : List String) (roster : List Manager)
    (s : Store) (row : ResultRow)
    (h : rowVal tickets roster row = none) :
    (processRow tickets roster s row).1 = s ∧
      ((processRow tickets roster s row).2 = RowOutcome.skippedNoGuid ∨
        (processRow tickets roster s row).2 =
          RowOutcome.skippedUnknown (cleanText row.guid)) := by
  unfold processRow
  unfold rowVal at h
  cases h1 : cleanText row.guid == ""
  · cases h2 : tickets.contains (cleanText row.guid)
    · have h2m : cleanText row.guid ∉ tickets := by simpa using h2
      simp [h1, h2m]
    · have h2m : cleanText row.guid ∈ tickets := by simpa using h2
      simp [h1, h2m] at h
  · simp [h1]

theorem processRow_some (tickets : List String) (roster : List Manager)
    (s : Store) (row : ResultRow) (v : RoutingResult)
    (h : rowVal tickets roster row = some v) :
    processRow tickets roster s row =
      ((upsert s v).1,
        if (upsert s v).2 then RowOutcome.created else RowOutcome.updated) := by
  unfold processRow
  unfold rowVal at h
  cases h1 : cleanText row.guid == ""
  · cases h2 : tickets.contains (cleanText row.guid)
    · have h2m : cleanText row.guid ∉ tickets := by simpa using h2
      simp [h1, h2m] at h
    · have h2m : cleanText row.guid ∈ tickets := by simpa using h2
      simp [h1, h2m] at h
      subst h
      simp [h1, h2m]
  · simp [h1] at h

theorem lookup_map_replace_self (s : Store) (v : RoutingResult) :
    lookupStore
        (s.map (fun x => if x.ticketGuid == v.ticketGuid then v else x))
        v.ticketGuid =
      if s.any (fun x => x.ticketGuid == v.ticketGuid) then some v else none := by
  induction s with
  | nil => rfl
  | cons x rest ih =>
    rw [List.map_cons, List.any_cons]
    unfold lookupStore at *
    cases hx : x.ticketGuid == v.ticketGuid
    · simp only [hx, Bool.false_eq_true, reduceIte, List.find?_cons, Bool.false_or]
      exact ih
    · simp only [hx, reduceIte, List.find?_cons, BEq.refl, Bool.true_or, if_true]

theorem lookup_map_replace_other (s : Store) (v : RoutingResult) (g : String)
    (hg : v.ticketGuid ≠ g) :
    lookupStore
        (s.map (fun x => if x.ticketGuid == v.ticketGuid then v else x)) g =
      lookupStore s g := by
  have hvg : (v.ticketGuid == g) = false := by
    rw [beq_eq_false_iff_ne]
    exact hg
  induction s with
  | nil => rfl
  | cons x rest ih =>
    rw [List.map_cons]
    unfold lookupStore at *
    cases hx : x.ticketGuid == v.ticketGuid
    · simp only [hx, Bool.false_eq_true, reduceIte, List.find?_cons]
      cases hxg : x.ticketGuid == g
      · exact ih
      · rfl
    · have hxg : (x.ticketGuid == g) = false := by
        rw [beq_eq_false_iff_ne]
        intro h
        exact hg ((eq_of_beq hx) ▸ h)
      simp only [hx, reduceIte, List.find?_cons, hvg, hxg]
      exact ih

theorem lookup_append_single (s : Store) (v : RoutingResult) (g : String) :
    lookupStore (s ++ [v]) g =
      match lookupStore s g with
      | some r => some r
      | none => if v.ticketGuid == g then some v else none := by
  unfold lookupStore
  rw [List.find?_append]
  cases hf : s.find? (fun r => r.ticketGuid == g)
  · simp only [Option.or]
    rw [List.find?_cons]
    cases hv : v.ticketGuid == g <;> rfl
  · rfl

theorem lookup_upsert (s : Store) (v : RoutingResult) (g : String) :
    lookupStore (upsert s v).1 g =
      if v.ticketGuid = g then some v
      else lookupStore s g := by
  unfold upsert
  cases hany : s.any (fun x => x.ticketGuid == v.ticketGuid)
  · simp only [hany, Bool.false_eq_true, reduceIte]
    rw [lookup_append_single]
    by_cases hvg : v.ticketGuid = g
    · subst hvg
      have hnone : lookupStore s v.ticketGuid = none := by
        unfold lookupStore
        rw [List.find?_eq_none]
        intro x hx
        have := List.any_eq_false.mp hany x hx
        simpa using this
      rw [hnone]
      simp
    · rw [if_neg hvg]
      cases hl : lookupStore s g
      · have hvgb : (v.ticketGuid == g) = false := by
          rw [beq_eq_false_iff_ne]; exact hvg
        simp [hvgb]
      · rfl
  · simp only [hany, reduceIte]
    by_cases hvg : v.ticketGuid = g
    · subst hvg
      rw [lookup_map_replace_self, hany]
      simp
    · rw [lookup_map_replace_other s v g hvg, if_neg hvg]

theorem storeGuids_upsert (s : Store) (v : RoutingResult) :
    storeGuids (upsert s v).1 =
      if s.any (fun x => x.ticketGuid == v.ticketGuid) then storeGuids s
      else storeGuids s ++ [v.ticketGuid] := by
  unfold upsert
  cases hany : s.any (fun x => x.ticketGuid == v.ticketGuid)
  · simp only [hany, Bool.false_eq_true, reduceIte]
    unfold storeGuids
    rw [List.map_append]
    rfl
  · simp only [hany, reduceIte]
    unfold storeGuids
    rw [List.map_map]
    apply List.map_congr_left
    intro x _
    cases hx : x.ticketGuid == v.ticketGuid
    · have hxp : x.ticketGuid ≠ v.ticketGuid := by simpa using hx
      simp [hxp]
    · simp only [Function.comp_apply, hx, reduceIte]
      exact (eq_of_beq hx).symm

theorem upsert_created (s : Store) (v : RoutingResult) :
    (upsert s v).2 = !(s.any (fun x => x.ticketGuid == v.ticketGuid)) := by
  unfold upsert
  cases hany : s.any (fun x => x.ticketGuid == v.ticketGuid) <;> simp [hany]

theorem nodup_upsert (s : Store) (v : RoutingResult)
    (h : (storeGuids s).Nodup) : (storeGuids (upsert s v).1).Nodup := by
  rw [storeGuids_upsert]
  cases hany : s.any (fun x => x.ticketGuid == v.ticketGuid)
  · simp only [Bool.false_eq_true, reduceIte]
    rw [List.nodup_append]
    refine ⟨h, List.nodup_singleton _, ?_⟩
    intro g hg hgv
    have hgv2 : g = v.ticketGuid := by simpa using hgv
    subst hgv2
    obtain ⟨x, hx, hxg⟩ := List.mem_map.mp hg
    have := List.any_eq_false.mp hany x hx
    rw [hxg] at this
    simp at this
  · simpa using h

theorem mem_storeGuids_of_any (s : Store) (g : String)
    (h : s.any (fun x => x.ticketGuid == g) = true) : g ∈ storeGuids s := by
  obtain ⟨x, hx, hxg⟩ := List.any_eq_true.mp h
  have : x.ticketGuid = g := by simpa using hxg
  exact this ▸ List.mem_map_of_mem RoutingResult.ticketGuid hx

theorem any_of_mem_storeGuids (s : Store) (g : String)
    (h : g ∈ storeGuids s) : s.any (fun x => x.ticketGuid == g) = true := by
  obtain ⟨x, hx, hxg⟩ := List.mem_map.mp h
  rw [List.any_eq_true]
  exact ⟨x, hx, by simpa using hxg⟩

/-- The record stored for GUID `g` once the whole batch is processed comes
from the last row of the batch that effectively writes `g`. -/
def lastVal (tickets : List String) (roster : List Manager) :
    List ResultRow → String → Option RoutingResult
  | [], _ => none
  | row :: rest, g =>
    match lastVal tickets roster rest g with
    | some v => some v
    | none =>
      match rowVal tickets roster row with
      | some v => if v.ticketGuid = g then some v else none
      | none => none

/-- One unfolding step of `ingest` on a non-empty batch (definitional). -/
theorem ingest_cons (tickets : List String) (roster : List Manager)
    (s : Store) (row : ResultRow) (rest : List ResultRow) :
    ingest tickets roster s (row :: rest) =
      (let p := processRow tickets roster s row
       let out := ingest tickets roster p.1 rest
       match p.2 with
       | RowOutcome.created => ⟨out.store, out.created + 1, out.updated, out.reports⟩
       | RowOutcome.updated => ⟨out.store, out.created, out.updated + 1, out.reports⟩
       | RowOutcome.skippedNoGuid => out
       | RowOutcome.skippedUnknown g =>
         ⟨out.store, out.created, out.updated, g :: out.reports⟩) := rfl

theorem ingest_cons_store (tickets : List String) (roster : List Manager)
    (s : Store) (row : ResultRow) (rest : List ResultRow) :
    (ingest tickets roster s (row :: rest)).store =
      (ingest tickets roster (processRow tickets roster s row).1 rest).store := by
  rw [ingest_cons]
  cases h : (processRow tickets roster s row).2 <;> simp [h]

theorem ingest_cons_created (tickets : List String) (roster : List Manager)
    (s : Store) (row : ResultRow) (rest : List ResultRow) :
    (ingest tickets roster s (row :: rest)).created =
      (ingest tickets roster (processRow tickets roster s row).1 rest).created +
        (if (processRow tickets roster s row).2 = RowOutcome.created then 1 else 0) := by
  rw [ingest_cons]
  cases h : (processRow tickets roster s row).2 <;> simp [h]

theorem ingest_cons_reports (tickets : List String) (roster : List Manager)
    (s : Store) (row : ResultRow) (rest : List ResultRow) :
    (ingest tickets roster s (row :: rest)).reports =
      (match (processRow tickets roster s row).2 with
       | RowOutcome.skippedUnknown g =>
         g :: (ingest tickets roster (processRow tickets roster s row).1 rest).reports
       | _ => (ingest tickets roster (processRow tickets roster s row).1 rest).reports) := by
  rw [ingest_cons]
  cases h : (processRow tickets roster s row).2 <;> simp [h]

theorem lastVal_cons (tickets : List String) (roster : List Manager)
    (row : ResultRow) (rest : List ResultRow) (g : String) :
    lastVal tickets roster (row :: rest) g =
      match lastVal tickets roster rest g with
      | some v => some v
      | none =>
        match rowVal tickets roster row with
        | some v => if v.ticketGuid = g then some v else none
        | none => none := rfl

theorem ingest_lookup (tickets : List String) (roster : List Manager)
    (rows : List ResultRow) (s : Store) (g : String) :
    lookupStore (ingest tickets roster s rows).store g =
      match lastVal tickets roster rows g with
      | some v => some v
      | none => lookupStore s g := by
  induction rows generalizing s with
  | nil => rfl
  | cons row rest ih =>
    rw [ingest_cons_store, ih, lastVal_cons]
    cases hl : lastVal tickets roster rest g
    · rw [processRow_store]
      cases hv : rowVal tickets roster row with
      | none => rfl
      | some v =>
        rw [lookup_upsert]
        by_cases hvg : v.ticketGuid = g <;> simp [hvg]
    · rfl

theorem mem_keys_of_lookup_some (s : Store) (g : String) (w : RoutingResult)
    (h : lookupStore s g = some w) : g ∈ storeGuids s := by
  unfold lookupStore at h
  have hw : w ∈ s := List.mem_of_find?_eq_some h
  have hp := List.find?_some h
  have hg : w.ticketGuid = g := by simpa using hp
  exact hg ▸ List.mem_map_of_mem RoutingResult.ticketGuid hw

theorem lookup_none_of_not_mem (s : Store) (g : String)
    (h : g ∉ storeGuids s) : lookupStore s g = none := by
  unfold lookupStore
  rw [List.find?_eq_none]
  intro x hx
  simp only [Bool.not_eq_true, beq_eq_false_iff_ne]
  intro heq
  exact h (heq ▸ List.mem_map_of_mem RoutingResult.ticketGuid hx)

theorem lastVal_isSome_of_mem (tickets : List String) (roster : List Manager)
    (rows : List ResultRow) (row : ResultRow) (v : RoutingResult)
    (hrow : row ∈ rows) (hv : rowVal tickets roster row = some v) :
    ∃ w, lastVal tickets roster rows v.ticketGuid = some w := by
  induction rows with
  | nil => cases hrow
  | cons row0 rest ih =>
    unfold lastVal
    cases hl : lastVal tickets roster rest v.ticketGuid
    · rcases List.mem_cons.mp hrow with hr0 | hr
      · subst hr0
        rw [hv]
        exact ⟨v, by simp⟩
      · obtain ⟨w, hw⟩ := ih hr
        rw [hw] at hl
        cases hl
    · exact ⟨_, rfl⟩

theorem nodup_ingest (tickets : List String) (roster : List Manager)
    (rows : List ResultRow) (s : Store)
    (h : (storeGuids s).Nodup) :
    (storeGuids (ingest tickets roster s rows).store).Nodup := by
  induction rows generalizing s with
  | nil => exact h
  | cons row rest ih =>
    rw [ingest_cons_store]
    apply ih
    rw [processRow_store]
    cases hv : rowVal tickets roster row with
    | none => exact h
    | some v => exact nodup_upsert _ _ h

theorem ingest_replace_only (tickets : List String) (roster : List Manager)
    (rows : List ResultRow) (s : Store)
    (h : ∀ row ∈ rows, ∀ v, rowVal tickets roster row = some v →
      v.ticketGuid ∈ storeGuids s) :
    (ingest tickets roster s rows).created = 0 ∧
      storeGuids (ingest tickets roster s rows).store = storeGuids s := by
  induction rows generalizing s with
  | nil => exact ⟨rfl, rfl⟩
  | cons row rest ih =>
    have hns : (processRow tickets roster s row).2 ≠ RowOutcome.created ∧
        storeGuids (processRow tickets roster s row).1 = storeGuids s := by
      cases hv : rowVal tickets roster row with
      | none =>
        obtain ⟨hs, hout⟩ := processRow_skip_none tickets roster s row hv
        refine ⟨?_, by rw [hs]⟩
        rcases hout with h1 | h1 <;> rw [h1] <;> intro hc <;> cases hc
      | some v =>
        have hmem : v.ticketGuid ∈ storeGuids s :=
          h row (List.mem_cons_self row rest) v hv
        have hany : s.any (fun x => x.ticketGuid == v.ticketGuid) = true :=
          any_of_mem_storeGuids s v.ticketGuid hmem
        have hpr := processRow_some tickets roster s row v hv
        rw [hpr]
        have hcreated : (upsert s v).2 = false := by
          rw [upsert_created, hany]
          rfl
        constructor
        · rw [hcreated]
          intro hc
          cases hc
        · show storeGuids (upsert s v).1 = storeGuids s
          rw [storeGuids_upsert, hany]
          rfl
    have hrest := ih (processRow tickets roster s row).1 (fun r hr w hw => by
      rw [hns.2]
      exact h r (List.mem_cons_of_mem row hr) w hw)
    constructor
    · rw [ingest_cons_created, hrest.1, if_neg hns.1]
    · rw [ingest_cons_store, hrest.2, hns.2]

theorem store_ext (s1 : Store) : ∀ (s2 : Store),
    storeGuids s1 = storeGuids s2 →
    (∀ g, lookupStore s1 g = lookupStore s2 g) →
    (storeGuids s1).Nodup → s1 = s2 := by
  induction s1 with
  | nil =>
    intro s2 hk _ _
    cases s2 with
    | nil => rfl
    | cons y t2 => simp [storeGuids] at hk
  | cons x t1 ih =>
    intro s2 hk hl hn
    cases s2 with
    | nil => simp [storeGuids] at hk
    | cons y t2 =>
      unfold storeGuids at hk
      rw [List.map_cons, List.map_cons] at hk
      injection hk with hk1 hk2
      have hx := hl x.ticketGuid
      unfold lookupStore at hx
      rw [List.find?_cons, List.find?_cons] at hx
      have hxx : (x.ticketGuid == x.ticketGuid) = true := by simp
      have hyy : (y.ticketGuid == x.ticketGuid) = true := by
        rw [beq_iff_eq]
        exact hk1.symm
      rw [hxx, hyy] at hx
      have hxy : x = y := by injection hx
      subst hxy
      have hn2 : (x.ticketGuid :: storeGuids t1).Nodup := hn
      have hnx : x.ticketGuid ∉ storeGuids t1 := (List.nodup_cons.mp hn2).1
      have hnx2 : x.ticketGuid ∉ storeGuids t2 := by
        rw [show storeGuids t2 = storeGuids t1 from hk2.symm]
        exact hnx
      have hl2 : ∀ g, lookupStore t1 g = lookupStore t2 g := by
        intro g
        by_cases hgx : x.ticketGuid = g
        · subst hgx
          rw [lookup_none_of_not_mem t1 _ hnx, lookup_none_of_not_mem t2 _ hnx2]
        · have hg := hl g
          unfold lookupStore at hg
          rw [List.find?_cons, List.find?_cons] at hg
          have hxg : (x.ticketGuid == g) = false := by
            rw [beq_eq_false_iff_ne]
            exact hgx
          rw [hxg] at hg
          exact hg
      rw [ih t2 hk2 hl2 (List.nodup_cons.mp hn2).2]

/-- C5: ingestion upserts replace whole records keyed by ticket GUID.
Re-ingesting the same batch over the already-ingested store leaves the
store identical, reports `created = 0`, keeps at most one record per
ticket GUID, and the record stored for each GUID is exactly the one built
from the batch's latest row for that GUID. -/
theorem C5_reingest_idempotent (tickets : List String) (roster : List Manager)
    (s0 : Store) (rows : List ResultRow)
    (h0 : (storeGuids s0).Nodup) :
    (ingest tickets roster (ingest tickets roster s0 rows).store rows).store =
      (ingest tickets roster s0 rows).store ∧
    (ingest tickets roster (ingest tickets roster s0 rows).store rows).created = 0 ∧
    (storeGuids (ingest tickets roster s0 rows).store).Nodup ∧
    (∀ g v, lastVal tickets roster rows g = some v →
      lookupStore (ingest tickets roster s0 rows).store g = some v) := by
  have hnod1 : (storeGuids (ingest tickets roster s0 rows).store).Nodup :=
    nodup_ingest tickets roster rows s0 h0
  have hkeys : ∀ row ∈ rows, ∀ v, rowVal tickets roster row = some v →
      v.ticketGuid ∈ storeGuids (ingest tickets roster s0 rows).store := by
    intro row hrow v hv
    obtain ⟨w, hw⟩ := lastVal_isSome_of_mem tickets roster rows row v hrow hv
    have hlook := ingest_lookup tickets roster rows s0 v.ticketGuid
    rw [hw] at hlook
    exact mem_keys_of_lookup_some _ _ _ hlook
  have hz := ingest_replace_only tickets roster rows
    (ingest tickets roster s0 rows).store hkeys
  refine ⟨?_, hz.1, hnod1, ?_⟩
  · apply store_ext _ _ hz.2 _ (hz.2 ▸ hnod1)
    intro g
    rw [ingest_lookup, ingest_lookup]
    cases hl : lastVal tickets roster rows g <;> rfl
  · intro g v hlv
    have := ingest_lookup tickets roster rows s0 g
    rw [hlv] at this
    exact this

/-- Row template for the concrete ingestion scenarios: only the GUID cell
and the manager-name cell are populated. -/
def mkRow (g nm : Option String) : ResultRow :=
  { guid := g
    segment := none
    typ := none
    sentiment := none
    language := none
    priority := none
    recommendations := none
    attachments := none
    managerName := nm
    position := none
    office := none
    escalated := none
    cityOriginal := none
    routingReason := none
    aiSource := none
    geoMethod := none }

def c5Rows : List ResultRow :=
  [mkRow (some "g1") (some "Alice"), mkRow (some "zz") none,
   mkRow (some "g1") (some "Alice Smith")]

/-- Witness for C5: a batch with a duplicate GUID and an unknown ticket,
re-ingested over its own output: the store is unchanged, the second run
creates nothing, the GUIDs stay unique, and the stored record for "g1"
comes from the batch's last "g1" row. -/
theorem C5_reingest_idempotent_witness :
    ((ingest ["g1"] [aliceMgr] (ingest ["g1"] [aliceMgr] [] c5Rows).store
        c5Rows).store = (ingest ["g1"] [aliceMgr] [] c5Rows).store ∧
      (ingest ["g1"] [aliceMgr] (ingest ["g1"] [aliceMgr] [] c5Rows).store
        c5Rows).created = 0 ∧
      (storeGuids (ingest ["g1"] [aliceMgr] [] c5Rows).store).Nodup) ∧
    lookupStore (ingest ["g1"] [aliceMgr] [] c5Rows).store "g1" =
      some (buildResult [aliceMgr] "g1" (mkRow (some "g1") (some "Alice Smith"))) := by
  have h := C5_reingest_idempotent ["g1"] [aliceMgr] [] c5Rows (by decide)
  exact ⟨⟨h.1, h.2.1, h.2.2.1⟩,
    h.2.2.2 "g1" (buildResult [aliceMgr] "g1" (mkRow (some "g1") (some "Alice Smith")))
      (by decide)⟩

def noGuidRow : ResultRow := mkRow none none

/-- Counterexample for C3: a one-row batch whose row has no GUID.  The row
is skipped, but the run's observable output is `{created := 0, updated :=
0, reports := []}` — there is no skipped counter and the skipped row is not
reported with any reason tag. -/
theorem C3_skipped_row_not_reported :
    ingest ["g1"] [] [] [noGuidRow] =
      { store := [], created := 0, updated := 0, reports := [] } := by decide

/-- C3 (amended): the reconciler reports only `created` and `updated`
counts.  A row with an empty GUID is skipped silently and the batch output
is exactly the output for the remaining rows; a row with an unknown ticket
is skipped and the run's notices gain that GUID; in both cases the store,
the counters and the processing of every other row are untouched. -/
theorem C3_skip_reporting (tickets : List String) (roster : List Manager)
    (s : Store) (row : ResultRow) (rest : List ResultRow) :
    (cleanText row.guid = "" →
      ingest tickets roster s (row :: rest) = ingest tickets roster s rest) ∧
    (cleanText row.guid ≠ "" → tickets.contains (cleanText row.guid) = false →
      ingest tickets roster s (row :: rest) =
        { ingest tickets roster s rest with
            reports := cleanText row.guid ::
              (ingest tickets roster s rest).reports }) := by
  constructor
  · intro h
    have hg : (cleanText row.guid == "") = true := by
      rw [beq_iff_eq]
      exact h
    have hp : processRow tickets roster s row = (s, RowOutcome.skippedNoGuid) := by
      unfold processRow
      rw [if_pos hg]
    rw [ingest_cons]
    simp [hp]
  · intro h hc
    have hg : (cleanText row.guid == "") = false := by
      rw [beq_eq_false_iff_ne]
      exact h
    have hp : processRow tickets roster s row =
        (s, RowOutcome.skippedUnknown (cleanText row.guid)) := by
      have hcm : cleanText row.guid ∉ tickets := by simpa using hc
      unfold processRow
      simp [hg, hcm]
    rw [ingest_cons]
    simp [hp]

def unknownTicketRow : ResultRow := mkRow (some "zz") none

/-- Witness for C3 (amended): the silent skip of a GUID-less row, and the
reported skip of an unknown-ticket row. -/
theorem C3_skip_reporting_witness :
    (ingest ["g1"] [] [] [noGuidRow] =
      ingest ["g1"] [] [] ([] : List ResultRow)) ∧
    (ingest ["g1"] [] [] [unknownTicketRow] =
      { ingest ["g1"] [] [] ([] : List ResultRow) with
          reports := cleanText unknownTicketRow.guid ::
            (ingest ["g1"] [] [] ([] : List ResultRow)).reports }) :=
  ⟨(C3_skip_reporting ["g1"] [] [] noGuidRow []).1 (by decide),
   (C3_skip_reporting ["g1"] [] [] unknownTicketRow []).2 (by decide) (by decide)⟩

theorem isPrefixL_refl (l : List Char) : isPrefixL l l = true := by
  induction l with
  | nil => rfl
  | cons c rest ih => simp [isPrefixL, ih]

theorem icontains_refl (x : String) : icontains x x = true := by
  unfold icontains
  cases h : toLowerL x.data with
  | nil => rfl
  | cons c rest => simp [isInfixL, isPrefixL_refl]

def dashMgr : Manager := ⟨0, "-", 0⟩

def dashRow : ResultRow := mkRow (some "g1") (some "-")

/-- Counterexample for C7: a roster whose manager's full name is the
sentinel string "-" and a row whose free-text manager name is "-".  The
row is stored with no assigned manager (the sentinel is treated as
unresolved), yet the free-text component of load accounting counts it for
that manager: it contributes 1 to the deduplicated total. -/
theorem C7_sentinel_name_counted :
    ((ingest ["g1"] [dashMgr] [] [dashRow]).store.map
        RoutingResult.assignedManager = [none]) ∧
    aiCount (ingest ["g1"] [dashMgr] [] [dashRow]).store dashMgr = 1 := by decide

/-- C7 (amended): a row whose cleaned manager name is a sentinel ("",
"Не найден", "-") or matches no roster entry resolves to no manager and is
stored with an empty manager reference; it is excluded from a manager's
deduplicated total whenever the stored name is not exactly that manager's
full name — in particular a name absent from the roster is excluded from
every roster manager's total, but a sentinel equal to some roster full
name is still counted for that manager. -/
theorem C7_unresolved_manager (roster : List Manager) (name : String)
    (hsent : name = "" ∨ name = "Не найден" ∨ name = "-" ∨
      (∀ m ∈ roster, icontains m.fullName name = false)) :
    resolveManager roster name = none ∧
    (∀ row guid, cleanText row.managerName = name →
      (buildResult roster guid row).assignedManager = none) ∧
    (∀ m : Manager, name ≠ m.fullName →
      ∀ row guid, cleanText row.managerName = name →
        resolves (buildResult roster guid row) m = false) ∧
    ((∀ m ∈ roster, icontains m.fullName name = false) →
      ∀ m ∈ roster, ∀ row guid, cleanText row.managerName = name →
        resolves (buildResult roster guid row) m = false) ∧
    (∀ (r : RoutingResult) (s : Store) (m : Manager), resolves r m = false →
      aiCount (r :: s) m = aiCount s m) := by
  have h1 : resolveManager roster name = none := by
    unfold resolveManager
    rcases hsent with h | h | h | h
    · subst h
      rfl
    · subst h
      rfl
    · subst h
      rfl
    · by_cases hcond :
        (name != "" && name != "Не найден" && name != "-") = true
      · rw [if_pos hcond, List.find?_eq_none]
        intro m hm
        simp [h m hm]
      · rw [if_neg hcond]
  have h2 : ∀ row guid, cleanText row.managerName = name →
      (buildResult roster guid row).assignedManager = none := by
    intro row guid hname
    show (resolveManager roster (cleanText row.managerName)).map Manager.mid = none
    rw [hname, h1]
    rfl
  have h3 : ∀ m : Manager, name ≠ m.fullName →
      ∀ row guid, cleanText row.managerName = name →
        resolves (buildResult roster guid row) m = false := by
    intro m hne row guid hname
    have hfk : fkMatch (buildResult roster guid row) m = false := by
      unfold fkMatch
      rw [h2 row guid hname]
      rfl
    have hnm : nameMatch (buildResult roster guid row) m = false := by
      unfold nameMatch
      show (cleanText row.managerName == m.fullName) = false
      rw [hname, beq_eq_false_iff_ne]
      exact hne
    unfold resolves
    rw [hfk, hnm]
    rfl
  refine ⟨h1, h2, h3, ?_, ?_⟩
  · intro hnm m hm row guid hname
    apply h3 m _ row guid hname
    intro heq
    have := hnm m hm
    rw [heq, icontains_refl] at this
    cases this
  · intro r s m hres
    unfold aiCount
    rw [List.filter_cons_of_neg (by simp [hres])]

def unknownNameRow : ResultRow := mkRow (some "g1") (some "Unknown Person")

/-- Witness for C7 (amended) at the spec's scenario: the name "Unknown
Person" is absent from the roster, the stored record carries no manager
reference, and the record does not resolve to the rostered manager. -/
theorem C7_unresolved_manager_witness :
    resolveManager [aliceMgr] "Unknown Person" = none ∧
    (buildResult [aliceMgr] "g1" unknownNameRow).assignedManager = none ∧
    resolves (buildResult [aliceMgr] "g1" unknownNameRow) aliceMgr = false := by
  have h := C7_unresolved_manager [aliceMgr] "Unknown Person"
    (Or.inr (Or.inr (Or.inr (by decide))))
  exact ⟨h.1, h.2.1 unknownNameRow "g1" (by decide),
    h.2.2.2.1 (by decide) aliceMgr (by decide) unknownNameRow "g1" (by decide)⟩

/-- C10: for a non-sentinel name, manager resolution is the first roster
entry whose full name contains the name case-insensitively; the name-match
component of load accounting instead demands exact equality of the stored
name with the full name.  Hence a record resolved through a strictly
partial (non-exact) match carries the structured reference and is counted
through it, while its name-match predicate is false. -/
theorem C10_partial_match_counted_via_fk (roster : List Manager)
    (name : String) (mgr : Manager)
    (hns : (name != "" && name != "Не найден" && name != "-") = true)
    (hfind : roster.find? (fun m => icontains m.fullName name) = some mgr) :
    resolveManager roster name = some mgr ∧
    icontains mgr.fullName name = true ∧
    (∃ l1 l2, roster = l1 ++ mgr :: l2 ∧
      ∀ m ∈ l1, icontains m.fullName name = false) ∧
    (∀ row guid, cleanText row.managerName = name →
      (buildResult roster guid row).assignedManager = some mgr.mid ∧
      fkMatch (buildResult roster guid row) mgr = true ∧
      resolves (buildResult roster guid row) mgr = true ∧
      (name ≠ mgr.fullName →
        nameMatch (buildResult roster guid row) mgr = false)) := by
  have h1 : resolveManager roster name = some mgr := by
    unfold resolveManager
    rw [if_pos hns]
    exact hfind
  obtain ⟨hp, l1, l2, hsplit, hearlier⟩ := List.find?_eq_some.mp hfind
  refine ⟨h1, hp, ⟨l1, l2, hsplit, ?_⟩, ?_⟩
  · intro m hm
    have := hearlier m hm
    simpa using this
  · intro row guid hname
    have hassigned : (buildResult roster guid row).assignedManager = some mgr.mid := by
      show (resolveManager roster (cleanText row.managerName)).map Manager.mid =
        some mgr.mid
      rw [hname, h1]
      rfl
    have hfk : fkMatch (buildResult roster guid row) mgr = true := by
      unfold fkMatch
      rw [hassigned]
      simp
    refine ⟨hassigned, hfk, ?_, ?_⟩
    · unfold resolves
      rw [hfk]
      rfl
    · intro hne
      unfold nameMatch
      show (cleanText row.managerName == mgr.fullName) = false
      rw [hname, beq_eq_false_iff_ne]
      exact hne

def ivanMgr : Manager := ⟨1, "Ivanov Ivan Petrovich", 3⟩

def c10Roster : List Manager := [⟨0, "Zed Brown", 0⟩, ivanMgr]

def partialNameRow : ResultRow := mkRow (some "g1") (some "ivanov iv")

/-- Witness for C10: the name "ivanov iv" partially matches "Ivanov Ivan
Petrovich" case-insensitively; the record stores the FK, is counted via
the structured reference, and its exact-name predicate is false. -/
theorem C10_partial_match_counted_via_fk_witness :
    resolveManager c10Roster "ivanov iv" = some ivanMgr ∧
    (buildResult c10Roster "g1" partialNameRow).assignedManager =
      some ivanMgr.mid ∧
    fkMatch (buildResult c10Roster "g1" partialNameRow) ivanMgr = true ∧
    resolves (buildResult c10Roster "g1" partialNameRow) ivanMgr = true ∧
    nameMatch (buildResult c10Roster "g1" partialNameRow) ivanMgr = false := by
  have h := C10_partial_match_counted_via_fk c10Roster "ivanov iv" ivanMgr
    (by decide) (by decide)
  have h4 := h.2.2.2 partialNameRow "g1" (by decide)
  exact ⟨h.1, h4.1, h4.2.1, h4.2.2.1, h4.2.2.2 (by decide)⟩
